import Mathlib

/-!
Verification of the acquisition loop `fetchAndSaveFast` of `oldFetch.py`
(LeCrunch3).  The scope, the h5py file and the wall clock are external
collaborators; they are modelled as explicit state and as an input trace of
per-batch events.  Line numbers in comments refer to `src/oldFetch.py`.
-/

/-- One channel's payload for one trigger in sequence mode, as returned by
`scope.get_waveform_all(channel)` (line 107): descriptor fields, the
concatenated raw sample array and the per-sub-event trigger data. -/
structure ChanData where
  wave_array_count : Nat
  samples : List Int
  vertical_offset : Int
  vertical_gain : Int
  horiz_offset : Int
  horiz_interval : Int
  trg_offsets : Nat → Int
  trg_times : Nat → Int

/-- The SEQUENCE entry of the settings read back from the scope
(`settings["SEQUENCE"]`, lines 61-64): whether the mode string contains ON
and the trace count it reports. -/
structure ScopeSettings where
  sequenceOn : Bool
  sequenceCount : Nat
deriving DecidableEq

/-- Lines 61-64: `sequence_count` is the count parsed from the read-back
SEQUENCE setting when it reports ON, and 1 otherwise. -/
def confirmedSequenceCount (s : ScopeSettings) : Nat :=
  if s.sequenceOn then s.sequenceCount else 1

/-- The session parameters fixed before the acquisition loop starts:
requested event total and batch size, the channel list, the read-back
settings, the per-channel `wave_array_count` of the initial wave descriptor
(line 80) and the start time (line 45). -/
structure Config where
  nevents : Nat
  nsequence : Nat
  channels : List Nat
  settings : ScopeSettings
  initWaveCount : Nat → Nat
  startTime : Int

/-- The confirmed batch size used by all batch-to-index arithmetic. -/
def Config.seqCount (cfg : Config) : Nat := confirmedSequenceCount cfg.settings

/-- Lines 67-68: the warning is printed exactly when the requested batch size
differs from the confirmed one. -/
def configWarning (cfg : Config) : Bool := cfg.nsequence != cfg.seqCount

/-- The six per-event scalar datasets written at lines 119-124. -/
structure ScalarFields where
  vert_offset : Int
  vert_scale : Int
  horiz_offset : Int
  horiz_scale : Int
  trig_offset : Int
  trig_time : Int
deriving DecidableEq

/-- Model of the h5py file: per-channel sample rows and per-event scalar
records (none = never assigned), the global seconds_from_start array with
its zero fill value, the list of seconds_from_start indices actually
assigned, and the log of sample-dimension resize calls (most recent
first). -/
structure FileState where
  rows : Nat → Nat → Option (List Int)
  scalars : Nat → Nat → Option ScalarFields
  seconds : Nat → Int
  secondsWritten : List Nat
  resizeLog : List (Nat × Nat)

/-- The freshly created file (lines 72-96): all datasets allocated, nothing
assigned yet, numeric cells at their zero fill value. -/
def emptyFile : FileState where
  rows := fun _ _ => none
  scalars := fun _ _ => none
  seconds := fun _ => 0
  secondsWritten := []
  resizeLog := []

/-- `f[f"c{channel}_samples"].resize(current_dim[channel], 1)` (line 112):
the sample dimension of one channel grows, existing rows keep their cells
and the new cells are zero-filled. -/
def resizeChannel (file : FileState) (c newDim : Nat) : FileState :=
  { file with
    rows := fun c2 idx =>
      if c2 = c then
        (file.rows c2 idx).map (fun r => r ++ List.replicate (newDim - r.length) 0)
      else file.rows c2 idx
    resizeLog := (c, newDim) :: file.resizeLog }

/-- One event write at (channel, index): the samples row (line 118) together
with the six scalars (lines 119-124). -/
def writeEventRow (file : FileState) (c idx : Nat) (row : List Int) (sf : ScalarFields) : FileState :=
  { file with
    rows := fun c2 j => if c2 = c ∧ j = idx then some row else file.rows c2 j
    scalars := fun c2 j => if c2 = c ∧ j = idx then some sf else file.scalars c2 j }

/-- `f["seconds_from_start"][i] = float(time.time() - startTime)` (line 104). -/
def writeSeconds (file : FileState) (idx : Nat) (v : Int) : FileState :=
  { file with
    seconds := fun j => if j = idx then v else file.seconds j
    secondsWritten := idx :: file.secondsWritten }

/-- `traces[n]` after `wave_array.reshape(sequence_count, size // sequence_count)`
(line 113): the n-th length-tlen segment of the flat sample array. -/
def subTrace (samples : List Int) (tlen n : Nat) : List Int :=
  (samples.drop (n * tlen)).take tlen

/-- The scratch row after `scratch[0:num_samples] = traces[n][:num_samples_toSave]`
in the elementwise case (lines 115-117): the first ns cells come from the
trace, the rest keep the zero fill. -/
def paddedRow (trace : List Int) (ns dim2 : Nat) : List Int :=
  trace.take ns ++ List.replicate (dim2 - ns) 0

/-- The scratch row in the numpy broadcast case (right-hand slice of length
one): the single value fills the first ns cells, the rest keep the zero
fill. -/
def broadcastRow (v : Int) (ns dim2 : Nat) : List Int :=
  List.replicate ns v ++ List.replicate (dim2 - ns) 0

/-- The six scalar values written for sub-event n (lines 119-124). -/
def scalarsOf (d : ChanData) (n : Nat) : ScalarFields where
  vert_offset := d.vertical_offset
  vert_scale := d.vertical_gain
  horiz_offset := d.horiz_offset
  horiz_scale := d.horiz_interval
  trig_offset := d.trg_offsets n
  trig_time := d.trg_times n

/-- The `for n in range(0, sequence_count)` write loop (lines 116-124): each
sub-event row is written at global index i + n; an h5py write at an index
outside the event dimension raises, stopping the loop with the writes made
so far still in the file. -/
def writeSubEvents (nev i c : Nat) (d : ChanData) (rowFor : Nat → List Int) :
    List Nat → FileState → FileState × Bool
  | [], file => (file, true)
  | n :: rest, file =>
    if i + n < nev then
      writeSubEvents nev i c d rowFor rest (writeEventRow file c (i + n) (rowFor n) (scalarsOf d n))
    else (file, false)

/-- Lines 113-124 for one channel, after the capacity update: the reshape
(raises unless the flat size is divisible by the batch size), the numpy
slice assignment into the zero scratch row (elementwise when the trace
covers ns samples, broadcast when the right-hand slice has length one,
an error otherwise) and the write loop. -/
def processChannelBody (nev seq i c : Nat) (d : ChanData) (ns dim2 : Nat) (file2 : FileState) :
    FileState × Bool :=
  if d.samples.length % seq ≠ 0 then (file2, false)
  else
    let tlen := d.samples.length / seq
    if ns ≤ tlen then
      writeSubEvents nev i c d (fun n => paddedRow (subTrace d.samples tlen n) ns dim2)
        (List.range seq) file2
    else if tlen = 1 then
      writeSubEvents nev i c d (fun n => broadcastRow ((subTrace d.samples tlen n).headD 0) ns dim2)
        (List.range seq) file2
    else (file2, false)

/-- Lines 107-124 for one channel: num_samples = wave_array_count //
sequence_count recomputed for this batch (line 108), num_samples_toSave =
int(1 * num_samples) = num_samples (line 109), the capacity growth with its
dataset resize (lines 110-112), then the decode and write body.  Returns the
new capacity, the file after all mutations made before any error, and
whether the channel completed without an exception. -/
def processChannel (nev seq i c : Nat) (d : ChanData) (dim : Nat) (file : FileState) :
    (Nat × FileState) × Bool :=
  let ns := d.wave_array_count / seq
  let dim2 := if dim < ns then ns else dim
  let file2 := if dim < ns then resizeChannel file c ns else file
  let r := processChannelBody nev seq i c d ns dim2 file2
  ((dim2, r.1), r.2)

/-- Pointwise update of the per-channel capacity map `current_dim`. -/
def updateFn (f : Nat → Nat) (c v : Nat) : Nat → Nat :=
  fun c2 => if c2 = c then v else f c2

/-- The `for channel in channels` loop (lines 106-124): channels are
processed in order; a fetch that raises (payload none) or a channel body
that raises aborts the batch, keeping every mutation made so far. -/
def processChannels (nev seq i : Nat) (payload : Nat → Option ChanData) :
    List Nat → (Nat → Nat) → FileState → ((Nat → Nat) × FileState) × Bool
  | [], dims, file => ((dims, file), true)
  | c :: rest, dims, file =>
    match payload c with
    | none => ((dims, file), false)
    | some d =>
      let r := processChannel nev seq i c d (dims c) file
      let dims2 := updateFn dims c r.1.1
      if r.2 then processChannels nev seq i payload rest dims2 r.1.2
      else ((dims2, r.1.2), false)

/-- Scope operations logged by the model (only the two the recovery path
performs). -/
inductive ScopeOp
  | clear
  | setSettings
deriving DecidableEq

/-- The loop state: the global event cursor i, the per-channel capacity map
current_dim, the file, and the log of scope clear / set_settings calls
(most recent first). -/
structure LoopState where
  i : Nat
  current_dim : Nat → Nat
  file : FileState
  scopeLog : List ScopeOp

/-- What one iteration of the while loop meets in the outside world:
a cancellation (KeyboardInterrupt, not caught by `except Exception`),
an exception from `scope.trigger()`, or a fetched batch with one optional
payload per channel (none = `get_waveform_all` raised).  `recoveryOk` tells
whether the `scope.clear(); scope.set_settings(...)` recovery path itself
completes, should this iteration fail. -/
inductive BatchKind
  | interrupt
  | triggerFail
  | data (payload : Nat → Option ChanData)

/-- One element of the external trace: the wall-clock time at the top of the
iteration plus the iteration's fate. -/
structure BatchInput where
  now : Int
  kind : BatchKind
  recoveryOk : Bool

/-- Outcome of one iteration of the while loop body. -/
inductive BatchOutcome
  | ok
  | recovered
  | escaped
deriving DecidableEq

/-- The `except Exception` handler (lines 126-130): `scope.clear()` then
`scope.set_settings(scopeSets)` then `continue`, leaving the cursor alone;
if the recovery path itself raises, the exception escapes the while loop. -/
def recover (st : LoopState) (recoveryOk : Bool) : LoopState × BatchOutcome :=
  if recoveryOk then
    ({ st with scopeLog := ScopeOp.setSettings :: ScopeOp.clear :: st.scopeLog },
      BatchOutcome.recovered)
  else (st, BatchOutcome.escaped)

/-- One iteration of the while body (lines 100-131): record the elapsed time
at index i (line 104, before the trigger), trigger, process every channel,
and either advance i by sequence_count (line 131) or run the recovery
handler without advancing. -/
def batchStep (cfg : Config) (st : LoopState) (inp : BatchInput) : LoopState × BatchOutcome :=
  match inp.kind with
  | BatchKind.interrupt => (st, BatchOutcome.escaped)
  | BatchKind.triggerFail =>
    recover { st with file := writeSeconds st.file st.i (inp.now - cfg.startTime) } inp.recoveryOk
  | BatchKind.data payload =>
    let file1 := writeSeconds st.file st.i (inp.now - cfg.startTime)
    let r := processChannels cfg.nevents cfg.seqCount st.i payload cfg.channels st.current_dim file1
    let st2 := { st with current_dim := r.1.1, file := r.1.2 }
    if r.2 then ({ st2 with i := st.i + cfg.seqCount }, BatchOutcome.ok)
    else recover st2 inp.recoveryOk

/-- How the while loop ended: the guard i >= nevents became false
(completed), the modelled external trace ran out while the guard still held
(exhausted), or an exception escaped the loop body (escaped). -/
inductive ExitKind
  | completed
  | exhausted
  | escaped
deriving DecidableEq

/-- The `while i < nevents` loop (lines 100-131) driven by the external
trace. -/
def runLoop (cfg : Config) : List BatchInput → LoopState → LoopState × ExitKind
  | [], st =>
    if st.i < cfg.nevents then (st, ExitKind.exhausted) else (st, ExitKind.completed)
  | inp :: rest, st =>
    if st.i < cfg.nevents then
      match batchStep cfg st inp with
      | (st2, BatchOutcome.escaped) => (st2, ExitKind.escaped)
      | (st2, _) => runLoop cfg rest st2
    else (st, ExitKind.completed)

/-- State right before the loop: i = 0 (line 99), current_dim from the
initial wave descriptors (line 80), the fresh file, and the setup's
scope.clear (line 47) and scope.set_settings (line 56) in the log. -/
def initState (cfg : Config) : LoopState where
  i := 0
  current_dim := fun c => cfg.initWaveCount c / cfg.seqCount
  file := emptyFile
  scopeLog := [ScopeOp.setSettings, ScopeOp.clear]

/-- What `fetchAndSaveFast` hands back to its caller: the returned value and
whether the teardown ran. -/
structure FetchResult where
  ret : Nat
  fileClosed : Bool
  scopeCleared : Bool
deriving DecidableEq

/-- Lines 98-140: the loop inside `try`, a bare `except` absorbing anything
that escapes the loop body, and a `finally` that closes the file, clears the
scope and executes `return i` - a return inside `finally` replaces any
in-flight exception, so the caller always receives the cursor value. -/
def fetchAndSaveFast (cfg : Config) (ins : List BatchInput) : FetchResult :=
  let r := runLoop cfg ins (initState cfg)
  { ret := r.1.i, fileClosed := true, scopeCleared := true }

/-- Row-length invariant: every sample row present in the file has exactly
its channel's current capacity as its length. -/
def FileInv (dims : Nat → Nat) (file : FileState) : Prop :=
  ∀ c idx r, file.rows c idx = some r → r.length = dims c

/-- A channel payload whose scalar fields are all zero. -/
def mkChan (wc : Nat) (s : List Int) : ChanData where
  wave_array_count := wc
  samples := s
  vertical_offset := 0
  vertical_gain := 0
  horiz_offset := 0
  horiz_interval := 0
  trg_offsets := fun _ => 0
  trg_times := fun _ => 0

/-- A consistent 4-sample payload: two sub-events of two samples each at
batch size 2, or one sub-event of four samples at batch size 1. -/
def chan4 : ChanData := mkChan 4 [1, 2, 3, 4]

/-- A consistent 2-sample payload for batch size 1. -/
def chan2 : ChanData := mkChan 2 [5, 6]

/-- A malformed payload: 3 raw samples cannot be reshaped at batch size 2. -/
def chanMal : ChanData := mkChan 4 [5, 5, 5]

/-- A payload whose sub-event is longer (5 samples) than an initial capacity
of 3, at batch size 1. -/
def chanGrow : ChanData := mkChan 5 [7, 7, 7, 7, 7]

/-- A payload reporting 1200 samples per sub-event at batch size 2. -/
def chanBig : ChanData := mkChan 2400 []

/-- A file holding one previously written 1000-cell row for channel 1 at
index 0. -/
def fileBig : FileState :=
  writeEventRow emptyFile 1 0 (List.replicate 1000 3) (scalarsOf chanBig 0)

/-- Session of the end-to-end scenario: 10 events, confirmed batch size 2,
channels 1 and 2, initial capacity 2 samples, start time 0. -/
def cfgA : Config where
  nevents := 10
  nsequence := 2
  channels := [1, 2]
  settings := { sequenceOn := true, sequenceCount := 2 }
  initWaveCount := fun _ => 4
  startTime := 0

/-- Session with nevents = 5 not a multiple of the confirmed batch size 2. -/
def cfgB : Config where
  nevents := 5
  nsequence := 2
  channels := [1]
  settings := { sequenceOn := true, sequenceCount := 2 }
  initWaveCount := fun _ => 4
  startTime := 0

/-- Session with sequence mode reported off: confirmed batch size 1. -/
def cfgC : Config where
  nevents := 4
  nsequence := 1
  channels := [1]
  settings := { sequenceOn := false, sequenceCount := 0 }
  initWaveCount := fun _ => 2
  startTime := 0

/-- A loop state of cfgA with the cursor at 6. -/
def stW : LoopState where
  i := 6
  current_dim := fun _ => 2
  file := emptyFile
  scopeLog := []

/-- A loop state of cfgB with the cursor at 4, one batch short of 5. -/
def stB : LoopState where
  i := 4
  current_dim := fun _ => 2
  file := emptyFile
  scopeLog := []

/-- A fresh loop state for cfgC. -/
def stC : LoopState where
  i := 0
  current_dim := fun _ => 2
  file := emptyFile
  scopeLog := []

/-- A good batch for cfgA and cfgB at time t. -/
def batchA (t : Int) : BatchInput where
  now := t
  kind := BatchKind.data (fun _ => some chan4)
  recoveryOk := true

/-- A good batch for cfgC. -/
def batchC : BatchInput where
  now := 1
  kind := BatchKind.data (fun _ => some chan2)
  recoveryOk := true

/-- A trigger failure whose recovery path completes. -/
def failTrig : BatchInput where
  now := 7
  kind := BatchKind.triggerFail
  recoveryOk := true

/-- A trigger failure whose recovery path itself raises. -/
def escTrig : BatchInput where
  now := 7
  kind := BatchKind.triggerFail
  recoveryOk := false

/-- A user cancellation. -/
def cancelB : BatchInput where
  now := 0
  kind := BatchKind.interrupt
  recoveryOk := true

/-- The error-free 5-batch trace of the end-to-end run, with symbolic
times. -/
def insA (t1 t2 t3 t4 t5 : Int) : List BatchInput :=
  [batchA t1, batchA t2, batchA t3, batchA t4, batchA t5]

/-- The concrete error-free trace with times 1..5. -/
def insAc : List BatchInput := insA 1 2 3 4 5

/-- The cancellation trace: two good batches, then the interrupt. -/
def insCancel : List BatchInput := [batchA 1, batchA 2, cancelB]

/-- The escaping trace for cfgC: one good batch, then a failure whose
recovery raises. -/
def insEsc : List BatchInput := [batchC, escTrig]

lemma replicate_getElem (n j : Nat) (a : Int) (h : j < n) :
    (List.replicate n a)[j]? = some a := by
  simp [List.getElem?_replicate, h]

lemma wse_resizeLog (nev i c : Nat) (d : ChanData) (rowFor : Nat → List Int) :
    ∀ (l : List Nat) (file : FileState),
      (writeSubEvents nev i c d rowFor l file).1.resizeLog = file.resizeLog := by
  intro l
  induction l with
  | nil => intro file; rfl
  | cons n rest ih =>
    intro file
    simp only [writeSubEvents]
    split
    · rw [ih]; rfl
    · rfl

lemma wse_rows_not_written (nev i c : Nat) (d : ChanData) (rowFor : Nat → List Int) :
    ∀ (l : List Nat) (file : FileState) (c2 idx : Nat),
      (∀ n ∈ l, ¬(c2 = c ∧ idx = i + n)) →
      (writeSubEvents nev i c d rowFor l file).1.rows c2 idx = file.rows c2 idx := by
  intro l
  induction l with
  | nil => intro file c2 idx _; rfl
  | cons n rest ih =>
    intro file c2 idx h
    simp only [writeSubEvents]
    split
    · rw [ih _ c2 idx (fun m hm => h m (List.mem_cons_of_mem n hm))]
      show (if c2 = c ∧ idx = i + n then some (rowFor n) else file.rows c2 idx) = file.rows c2 idx
      rw [if_neg (h n (List.mem_cons_self n rest))]
    · rfl

lemma wse_isSome_mono (nev i c : Nat) (d : ChanData) (rowFor : Nat → List Int) :
    ∀ (l : List Nat) (file : FileState) (c2 idx : Nat),
      (file.rows c2 idx).isSome = true →
      ((writeSubEvents nev i c d rowFor l file).1.rows c2 idx).isSome = true := by
  intro l
  induction l with
  | nil => intro file c2 idx h; exact h
  | cons n rest ih =>
    intro file c2 idx h
    simp only [writeSubEvents]
    split
    · apply ih
      show (Option.isSome (if c2 = c ∧ idx = i + n then some (rowFor n) else file.rows c2 idx)) = true
      split
      · rfl
      · exact h
    · exact h

lemma wse_true_bound (nev i c : Nat) (d : ChanData) (rowFor : Nat → List Int) :
    ∀ (l : List Nat) (file : FileState),
      (writeSubEvents nev i c d rowFor l file).2 = true →
      ∀ n ∈ l, i + n < nev := by
  intro l
  induction l with
  | nil => intro file _ n hn; exact absurd hn (List.not_mem_nil n)
  | cons m rest ih =>
    intro file h n hn
    simp only [writeSubEvents] at h
    split at h
    · rcases List.mem_cons.mp hn with he | ht
      · subst he; assumption
      · exact ih _ h n ht
    · exact absurd h (by simp)

lemma wse_true_isSome (nev i c : Nat) (d : ChanData) (rowFor : Nat → List Int) :
    ∀ (l : List Nat) (file : FileState),
      (writeSubEvents nev i c d rowFor l file).2 = true →
      ∀ n ∈ l, ((writeSubEvents nev i c d rowFor l file).1.rows c (i + n)).isSome = true := by
  intro l
  induction l with
  | nil => intro file _ n hn; exact absurd hn (List.not_mem_nil n)
  | cons m rest ih =>
    intro file h n hn
    simp only [writeSubEvents] at h ⊢
    split at h
    · rename_i hlt
      rw [if_pos hlt]
      rcases List.mem_cons.mp hn with he | ht
      · subst he
        apply wse_isSome_mono
        show (Option.isSome (if c = c ∧ i + n = i + n then some (rowFor n) else _)) = true
        rw [if_pos ⟨rfl, rfl⟩]
        rfl
      · exact ih _ h n ht
    · exact absurd h (by simp)

lemma wse_true_get (nev i c : Nat) (d : ChanData) (rowFor : Nat → List Int) :
    ∀ (l : List Nat) (file : FileState),
      l.Nodup →
      (writeSubEvents nev i c d rowFor l file).2 = true →
      ∀ n ∈ l, (writeSubEvents nev i c d rowFor l file).1.rows c (i + n) = some (rowFor n) := by
  intro l
  induction l with
  | nil => intro file _ _ n hn; exact absurd hn (List.not_mem_nil n)
  | cons m rest ih =>
    intro file hnd h n hn
    simp only [writeSubEvents] at h ⊢
    split at h
    · rename_i hlt
      rw [if_pos hlt]
      rcases List.mem_cons.mp hn with he | ht
      · subst he
        rw [wse_rows_not_written]
        · show (if c = c ∧ i + n = i + n then some (rowFor n) else _) = some (rowFor n)
          rw [if_pos ⟨rfl, rfl⟩]
        · intro m2 hm2 hc
          have hne : n ≠ m2 := by
            intro he2
            exact (List.nodup_cons.mp hnd).1 (he2 ▸ hm2)
          exact hne (by omega)
      · exact ih _ (List.nodup_cons.mp hnd).2 h n ht
    · exact absurd h (by simp)

lemma wse_inv (nev i c : Nat) (d : ChanData) (rowFor : Nat → List Int) (dims : Nat → Nat) :
    ∀ (l : List Nat) (file : FileState),
      FileInv dims file →
      (∀ n ∈ l, (rowFor n).length = dims c) →
      FileInv dims (writeSubEvents nev i c d rowFor l file).1 := by
  intro l
  induction l with
  | nil => intro file hinv _; exact hinv
  | cons m rest ih =>
    intro file hinv hrow
    simp only [writeSubEvents]
    split
    · apply ih
      · intro c2 idx r hr
        by_cases hc : c2 = c ∧ idx = i + m
        · have : some (rowFor m) = some r := by
            rw [← hr]
            show some (rowFor m) = if c2 = c ∧ idx = i + m then some (rowFor m) else file.rows c2 idx
            rw [if_pos hc]
          cases this
          rw [hc.1]
          exact hrow m (List.mem_cons_self m rest)
        · apply hinv c2 idx r
          rw [← hr]
          show file.rows c2 idx = if c2 = c ∧ idx = i + m then some (rowFor m) else file.rows c2 idx
          rw [if_neg hc]
      · intro n hn
        exact hrow n (List.mem_cons_of_mem m hn)
    · exact hinv

lemma rc_isSome (file : FileState) (c newDim c2 idx : Nat) :
    ((resizeChannel file c newDim).rows c2 idx).isSome = (file.rows c2 idx).isSome := by
  show (Option.isSome (if c2 = c then (file.rows c2 idx).map _ else file.rows c2 idx)) = _
  split
  · exact Option.isSome_map
  · rfl

lemma rc_rows_ne (file : FileState) (c newDim c2 idx : Nat) (h : c2 ≠ c) :
    (resizeChannel file c newDim).rows c2 idx = file.rows c2 idx := by
  show (if c2 = c then _ else file.rows c2 idx) = file.rows c2 idx
  rw [if_neg h]

lemma rc_rows_eq (file : FileState) (c newDim idx : Nat) :
    (resizeChannel file c newDim).rows c idx =
      (file.rows c idx).map (fun r => r ++ List.replicate (newDim - r.length) 0) := by
  show (if c = c then _ else _) = _
  rw [if_pos rfl]

lemma rc_inv (file : FileState) (c newDim : Nat) (dims : Nat → Nat)
    (hinv : FileInv dims file) (hle : dims c ≤ newDim) :
    FileInv (updateFn dims c newDim) (resizeChannel file c newDim) := by
  intro c2 idx r hr
  by_cases hc : c2 = c
  · subst hc
    rw [rc_rows_eq] at hr
    rcases Option.map_eq_some'.mp hr with ⟨r0, hr0, hpad⟩
    have hlen := hinv c2 idx r0 hr0
    subst hpad
    show _ = (if c2 = c2 then newDim else dims c2)
    rw [if_pos rfl]
    simp [List.length_append, List.length_replicate, hlen]
    omega
  · rw [rc_rows_ne file c newDim c2 idx hc] at hr
    show _ = (if c2 = c then newDim else dims c2)
    rw [if_neg hc]
    exact hinv c2 idx r hr

lemma pcb_resizeLog (nev seq i c : Nat) (d : ChanData) (ns dim2 : Nat) (file2 : FileState) :
    (processChannelBody nev seq i c d ns dim2 file2).1.resizeLog = file2.resizeLog := by
  simp only [processChannelBody]
  split
  · rfl
  · split
    · exact wse_resizeLog nev i c d _ (List.range seq) file2
    · split
      · exact wse_resizeLog nev i c d _ (List.range seq) file2
      · rfl

lemma pcb_rows_lt (nev seq i c : Nat) (d : ChanData) (ns dim2 : Nat) (file2 : FileState)
    (c2 idx : Nat) (h : idx < i) :
    (processChannelBody nev seq i c d ns dim2 file2).1.rows c2 idx = file2.rows c2 idx := by
  simp only [processChannelBody]
  split
  · rfl
  · split
    · exact wse_rows_not_written nev i c d _ (List.range seq) file2 c2 idx
        (fun n _ hc => by omega)
    · split
      · exact wse_rows_not_written nev i c d _ (List.range seq) file2 c2 idx
          (fun n _ hc => by omega)
      · rfl

lemma pcb_isSome_mono (nev seq i c : Nat) (d : ChanData) (ns dim2 : Nat) (file2 : FileState)
    (c2 idx : Nat) (h : (file2.rows c2 idx).isSome = true) :
    ((processChannelBody nev seq i c d ns dim2 file2).1.rows c2 idx).isSome = true := by
  simp only [processChannelBody]
  split
  · exact h
  · split
    · exact wse_isSome_mono nev i c d _ (List.range seq) file2 c2 idx h
    · split
      · exact wse_isSome_mono nev i c d _ (List.range seq) file2 c2 idx h
      · exact h

lemma pcb_true_bound (nev seq i c : Nat) (d : ChanData) (ns dim2 : Nat) (file2 : FileState)
    (h : (processChannelBody nev seq i c d ns dim2 file2).2 = true) :
    ∀ n < seq, i + n < nev := by
  intro n hn
  simp only [processChannelBody] at h
  split at h
  · exact absurd h (by simp)
  · split at h
    · exact wse_true_bound nev i c d _ (List.range seq) file2 h n (List.mem_range.mpr hn)
    · split at h
      · exact wse_true_bound nev i c d _ (List.range seq) file2 h n (List.mem_range.mpr hn)
      · exact absurd h (by simp)

lemma pcb_true_isSome (nev seq i c : Nat) (d : ChanData) (ns dim2 : Nat) (file2 : FileState)
    (h : (processChannelBody nev seq i c d ns dim2 file2).2 = true) :
    ∀ n < seq, ((processChannelBody nev seq i c d ns dim2 file2).1.rows c (i + n)).isSome = true := by
  intro n hn
  simp only [processChannelBody] at h ⊢
  split at h
  · exact absurd h (by simp)
  · rename_i hdiv
    rw [if_neg hdiv]
    split at h
    · rename_i hbr
      rw [if_pos hbr]
      exact wse_true_isSome nev i c d _ (List.range seq) file2 h n (List.mem_range.mpr hn)
    · rename_i hbr
      rw [if_neg hbr]
      split at h
      · rename_i hb2
        rw [if_pos hb2]
        exact wse_true_isSome nev i c d _ (List.range seq) file2 h n (List.mem_range.mpr hn)
      · exact absurd h (by simp)

lemma subTrace_length (samples : List Int) (seq tlen n : Nat)
    (hdiv : samples.length % seq = 0) (htl : tlen = samples.length / seq) (hn : n < seq) :
    (subTrace samples tlen n).length = tlen := by
  have hlen : samples.length = seq * tlen := by
    rw [htl, Nat.mul_div_cancel' (Nat.dvd_of_mod_eq_zero hdiv)]
  simp only [subTrace, List.length_take, List.length_drop]
  have : n * tlen + tlen ≤ seq * tlen := by
    have := Nat.succ_le_of_lt hn
    calc n * tlen + tlen = (n + 1) * tlen := by ring
    _ ≤ seq * tlen := Nat.mul_le_mul_right tlen this
  omega

lemma pcb_inv (nev seq i c : Nat) (d : ChanData) (ns dim2 : Nat) (file2 : FileState)
    (dims : Nat → Nat) (hd : dims c = dim2) (hns : ns ≤ dim2) (hinv : FileInv dims file2) :
    FileInv dims (processChannelBody nev seq i c d ns dim2 file2).1 := by
  simp only [processChannelBody]
  split
  · exact hinv
  · rename_i hdiv
    rw [Decidable.not_not] at hdiv
    split
    · rename_i hbr
      apply wse_inv nev i c d _ dims (List.range seq) file2 hinv
      intro n hn
      have hst := subTrace_length d.samples seq (d.samples.length / seq) n hdiv rfl
        (List.mem_range.mp hn)
      simp only [paddedRow, List.length_append, List.length_take, List.length_replicate, hst, hd]
      omega
    · split
      · apply wse_inv nev i c d _ dims (List.range seq) file2 hinv
        intro n _
        simp only [broadcastRow, List.length_append, List.length_replicate, hd]
        omega
      · exact hinv

lemma pc_dim (nev seq i c : Nat) (d : ChanData) (dim : Nat) (file : FileState) :
    (processChannel nev seq i c d dim file).1.1 = max dim (d.wave_array_count / seq) := by
  show (if dim < d.wave_array_count / seq then d.wave_array_count / seq else dim) = _
  split
  · rename_i h
    rw [Nat.max_eq_right h.le]
  · rename_i h
    rw [Nat.max_eq_left (Nat.le_of_not_lt h)]

lemma pc_resizeLog (nev seq i c : Nat) (d : ChanData) (dim : Nat) (file : FileState) :
    (processChannel nev seq i c d dim file).1.2.resizeLog =
      if dim < d.wave_array_count / seq then
        (c, d.wave_array_count / seq) :: file.resizeLog
      else file.resizeLog := by
  show (processChannelBody nev seq i c d _ _ _).1.resizeLog = _
  rw [pcb_resizeLog]
  split
  · rfl
  · rfl

lemma pc_rows_lt (nev seq i c : Nat) (d : ChanData) (dim : Nat) (file : FileState)
    (c2 idx : Nat) (h : idx < i) :
    (processChannel nev seq i c d dim file).1.2.rows c2 idx =
      (if dim < d.wave_array_count / seq then
        resizeChannel file c (d.wave_array_count / seq) else file).rows c2 idx := by
  show (processChannelBody nev seq i c d _ _ _).1.rows c2 idx = _
  rw [pcb_rows_lt nev seq i c d _ _ _ c2 idx h]

lemma pc_isSome_mono (nev seq i c : Nat) (d : ChanData) (dim : Nat) (file : FileState)
    (c2 idx : Nat) (h : (file.rows c2 idx).isSome = true) :
    ((processChannel nev seq i c d dim file).1.2.rows c2 idx).isSome = true := by
  show ((processChannelBody nev seq i c d _ _ _).1.rows c2 idx).isSome = true
  apply pcb_isSome_mono
  split
  · rw [rc_isSome]; exact h
  · exact h

lemma pc_true_bound (nev seq i c : Nat) (d : ChanData) (dim : Nat) (file : FileState)
    (h : (processChannel nev seq i c d dim file).2 = true) :
    ∀ n < seq, i + n < nev := by
  exact pcb_true_bound nev seq i c d _ _ _ h

lemma pc_true_isSome (nev seq i c : Nat) (d : ChanData) (dim : Nat) (file : FileState)
    (h : (processChannel nev seq i c d dim file).2 = true) :
    ∀ n < seq, ((processChannel nev seq i c d dim file).1.2.rows c (i + n)).isSome = true := by
  exact pcb_true_isSome nev seq i c d _ _ _ h

lemma pc_inv (nev seq i c : Nat) (d : ChanData) (dim : Nat) (file : FileState)
    (dims : Nat → Nat) (hd : dims c = dim) (hinv : FileInv dims file) :
    FileInv (updateFn dims c (processChannel nev seq i c d dim file).1.1)
      (processChannel nev seq i c d dim file).1.2 := by
  show FileInv
    (updateFn dims c (if dim < d.wave_array_count / seq then d.wave_array_count / seq else dim))
    (processChannelBody nev seq i c d (d.wave_array_count / seq)
      (if dim < d.wave_array_count / seq then d.wave_array_count / seq else dim)
      (if dim < d.wave_array_count / seq then
        resizeChannel file c (d.wave_array_count / seq) else file)).1
  by_cases hlt : dim < d.wave_array_count / seq
  · rw [if_pos hlt, if_pos hlt]
    apply pcb_inv
    · show (if c = c then _ else dims c) = _
      rw [if_pos rfl]
    · exact Nat.le_refl _
    · exact rc_inv file c (d.wave_array_count / seq) dims hinv (by omega)
  · rw [if_neg hlt, if_neg hlt]
    apply pcb_inv
    · show (if c = c then _ else dims c) = _
      rw [if_pos rfl]
    · omega
    · intro c2 idx r hr
      show _ = (if c2 = c then dim else dims c2)
      split
      · rename_i he
        subst he
        rw [← hd]
        exact hinv c2 idx r hr
      · exact hinv c2 idx r hr

lemma pcb_true_rows (nev seq i c : Nat) (d : ChanData) (ns dim2 : Nat) (file2 : FileState)
    (n : Nat) (h : (processChannelBody nev seq i c d ns dim2 file2).2 = true) (hn : n < seq) :
    (processChannelBody nev seq i c d ns dim2 file2).1.rows c (i + n) =
        some (paddedRow (subTrace d.samples (d.samples.length / seq) n) ns dim2)
      ∨ (processChannelBody nev seq i c d ns dim2 file2).1.rows c (i + n) =
        some (broadcastRow ((subTrace d.samples (d.samples.length / seq) n).headD 0) ns dim2) := by
  simp only [processChannelBody] at h ⊢
  split at h
  · exact absurd h (by simp)
  · rename_i hdiv
    rw [if_neg hdiv]
    split at h
    · rename_i hbr
      rw [if_pos hbr]
      left
      exact wse_true_get nev i c d _ (List.range seq) file2 (List.nodup_range seq) h n
        (List.mem_range.mpr hn)
    · rename_i hbr
      rw [if_neg hbr]
      split at h
      · rename_i hb2
        rw [if_pos hb2]
        right
        exact wse_true_get nev i c d _ (List.range seq) file2 (List.nodup_range seq) h n
          (List.mem_range.mpr hn)
      · exact absurd h (by simp)

lemma pcb_true_rows_elt (nev seq i c : Nat) (d : ChanData) (ns dim2 : Nat) (file2 : FileState)
    (n : Nat) (hdiv : d.samples.length % seq = 0) (hle : ns ≤ d.samples.length / seq)
    (h : (processChannelBody nev seq i c d ns dim2 file2).2 = true) (hn : n < seq) :
    (processChannelBody nev seq i c d ns dim2 file2).1.rows c (i + n) =
      some (paddedRow (subTrace d.samples (d.samples.length / seq) n) ns dim2) := by
  simp only [processChannelBody] at h ⊢
  rw [if_neg (by omega)] at h ⊢
  rw [if_pos hle] at h ⊢
  exact wse_true_get nev i c d _ (List.range seq) file2 (List.nodup_range seq) h n
    (List.mem_range.mpr hn)

lemma paddedRow_suffix (t : List Int) (ns dim2 j : Nat) (hj : ns ≤ j)
    (hlt : j < (paddedRow t ns dim2).length) : (paddedRow t ns dim2)[j]? = some 0 := by
  have hlen : (t.take ns).length ≤ j := by
    rw [List.length_take]
    omega
  have hlt2 : j - (t.take ns).length < dim2 - ns := by
    simp only [paddedRow, List.length_append, List.length_take, List.length_replicate] at hlt
    rw [List.length_take]
    omega
  simp only [paddedRow]
  rw [List.getElem?_append_right hlen]
  exact replicate_getElem _ _ _ hlt2

lemma broadcastRow_suffix (v : Int) (ns dim2 j : Nat) (hj : ns ≤ j)
    (hlt : j < (broadcastRow v ns dim2).length) : (broadcastRow v ns dim2)[j]? = some 0 := by
  have hlen : (List.replicate ns v).length ≤ j := by
    rw [List.length_replicate]
    omega
  simp only [broadcastRow] at hlt ⊢
  rw [List.getElem?_append_right hlen]
  apply replicate_getElem
  rw [List.length_append] at hlt
  simp only [List.length_replicate] at hlt ⊢
  omega

lemma pc_true_rows_elt (nev seq i c : Nat) (d : ChanData) (dim : Nat) (file : FileState)
    (n : Nat) (hdiv : d.samples.length % seq = 0)
    (hle : d.wave_array_count / seq ≤ d.samples.length / seq)
    (h : (processChannel nev seq i c d dim file).2 = true) (hn : n < seq) :
    (processChannel nev seq i c d dim file).1.2.rows c (i + n) =
      some (paddedRow (subTrace d.samples (d.samples.length / seq) n)
        (d.wave_array_count / seq) (max dim (d.wave_array_count / seq))) := by
  have hd := pc_dim nev seq i c d dim file
  have : (processChannel nev seq i c d dim file).1.2.rows c (i + n) =
      some (paddedRow (subTrace d.samples (d.samples.length / seq) n)
        (d.wave_array_count / seq) (processChannel nev seq i c d dim file).1.1) := by
    exact pcb_true_rows_elt nev seq i c d _ _ _ n hdiv hle h hn
  rw [this, hd]

lemma pc_true_suffix (nev seq i c : Nat) (d : ChanData) (dim : Nat) (file : FileState)
    (n : Nat) (r : List Int) (j : Nat)
    (h : (processChannel nev seq i c d dim file).2 = true) (hn : n < seq)
    (hr : (processChannel nev seq i c d dim file).1.2.rows c (i + n) = some r)
    (hj : d.wave_array_count / seq ≤ j) (hjl : j < r.length) : r[j]? = some 0 := by
  have hc := pcb_true_rows nev seq i c d (d.wave_array_count / seq) _ _ n h hn
  rcases hc with hc | hc
  · have heq : some r = some (paddedRow (subTrace d.samples (d.samples.length / seq) n)
        (d.wave_array_count / seq)
        (if dim < d.wave_array_count / seq then d.wave_array_count / seq else dim)) := by
      rw [← hr]
      exact hc
    injection heq with heq2
    subst heq2
    exact paddedRow_suffix _ _ _ j hj hjl
  · have heq : some r =
        some (broadcastRow ((subTrace d.samples (d.samples.length / seq) n).headD 0)
          (d.wave_array_count / seq)
          (if dim < d.wave_array_count / seq then d.wave_array_count / seq else dim)) := by
      rw [← hr]
      exact hc
    injection heq with heq2
    subst heq2
    exact broadcastRow_suffix _ _ _ j hj hjl

lemma pcs_cons_none (nev seq i : Nat) (payload : Nat → Option ChanData) (c : Nat)
    (rest : List Nat) (dims : Nat → Nat) (file : FileState) (hp : payload c = none) :
    processChannels nev seq i payload (c :: rest) dims file = ((dims, file), false) := by
  simp [processChannels, hp]

lemma pcs_cons_some (nev seq i : Nat) (payload : Nat → Option ChanData) (c : Nat)
    (rest : List Nat) (dims : Nat → Nat) (file : FileState) (d : ChanData)
    (hp : payload c = some d) :
    processChannels nev seq i payload (c :: rest) dims file =
      if (processChannel nev seq i c d (dims c) file).2 = true then
        processChannels nev seq i payload rest
          (updateFn dims c (processChannel nev seq i c d (dims c) file).1.1)
          (processChannel nev seq i c d (dims c) file).1.2
      else ((updateFn dims c (processChannel nev seq i c d (dims c) file).1.1,
             (processChannel nev seq i c d (dims c) file).1.2), false) := by
  simp [processChannels, hp]

lemma pcs_dim_mono (nev seq i : Nat) (payload : Nat → Option ChanData) :
    ∀ (l : List Nat) (dims : Nat → Nat) (file : FileState) (c2 : Nat),
      dims c2 ≤ (processChannels nev seq i payload l dims file).1.1 c2 := by
  intro l
  induction l with
  | nil => intro dims file c2; exact Nat.le_refl _
  | cons c rest ih =>
    intro dims file c2
    rcases hp : payload c with _ | d
    · rw [pcs_cons_none nev seq i payload c rest dims file hp]
    · rw [pcs_cons_some nev seq i payload c rest dims file d hp]
      have hup : dims c2 ≤
          updateFn dims c (processChannel nev seq i c d (dims c) file).1.1 c2 := by
        show dims c2 ≤ (if c2 = c then _ else dims c2)
        split
        · rename_i he
          subst he
          rw [pc_dim]
          exact Nat.le_max_left _ _
        · exact Nat.le_refl _
      split
      · exact Nat.le_trans hup (ih _ _ c2)
      · exact hup

lemma pcs_isSome_mono (nev seq i : Nat) (payload : Nat → Option ChanData) :
    ∀ (l : List Nat) (dims : Nat → Nat) (file : FileState) (c2 idx : Nat),
      (file.rows c2 idx).isSome = true →
      ((processChannels nev seq i payload l dims file).1.2.rows c2 idx).isSome = true := by
  intro l
  induction l with
  | nil => intro dims file c2 idx h; exact h
  | cons c rest ih =>
    intro dims file c2 idx h
    rcases hp : payload c with _ | d
    · rw [pcs_cons_none nev seq i payload c rest dims file hp]
      exact h
    · rw [pcs_cons_some nev seq i payload c rest dims file d hp]
      split
      · exact ih _ _ c2 idx (pc_isSome_mono nev seq i c d (dims c) file c2 idx h)
      · exact pc_isSome_mono nev seq i c d (dims c) file c2 idx h

lemma pcs_true_bound (nev seq i : Nat) (payload : Nat → Option ChanData) :
    ∀ (l : List Nat) (dims : Nat → Nat) (file : FileState),
      (processChannels nev seq i payload l dims file).2 = true →
      ∀ c ∈ l, ∀ n < seq, i + n < nev := by
  intro l
  induction l with
  | nil => intro dims file _ c hc; exact absurd hc (List.not_mem_nil c)
  | cons c0 rest ih =>
    intro dims file h c hc n hn
    rcases hp : payload c0 with _ | d
    · rw [pcs_cons_none nev seq i payload c0 rest dims file hp] at h
      exact absurd h (by simp)
    · rw [pcs_cons_some nev seq i payload c0 rest dims file d hp] at h
      split at h
      · rename_i hok
        rcases List.mem_cons.mp hc with he | ht
        · exact pc_true_bound nev seq i c0 d (dims c0) file hok n hn
        · exact ih _ _ h c ht n hn
      · exact absurd h (by simp)

lemma pcs_true_isSome (nev seq i : Nat) (payload : Nat → Option ChanData) :
    ∀ (l : List Nat) (dims : Nat → Nat) (file : FileState),
      (processChannels nev seq i payload l dims file).2 = true →
      ∀ c ∈ l, ∀ n < seq,
        ((processChannels nev seq i payload l dims file).1.2.rows c (i + n)).isSome = true := by
  intro l
  induction l with
  | nil => intro dims file _ c hc; exact absurd hc (List.not_mem_nil c)
  | cons c0 rest ih =>
    intro dims file h c hc n hn
    rcases hp : payload c0 with _ | d
    · rw [pcs_cons_none nev seq i payload c0 rest dims file hp] at h
      exact absurd h (by simp)
    · rw [pcs_cons_some nev seq i payload c0 rest dims file d hp] at h ⊢
      split at h
      · rename_i hok
        rw [if_pos hok]
        rcases List.mem_cons.mp hc with he | ht
        · subst he
          exact pcs_isSome_mono nev seq i payload rest _ _ c (i + n)
            (pc_true_isSome nev seq i c d (dims c) file hok n hn)
        · exact ih _ _ h c ht n hn
      · exact absurd h (by simp)

lemma pcs_inv (nev seq i : Nat) (payload : Nat → Option ChanData) :
    ∀ (l : List Nat) (dims : Nat → Nat) (file : FileState),
      FileInv dims file →
      FileInv (processChannels nev seq i payload l dims file).1.1
        (processChannels nev seq i payload l dims file).1.2 := by
  intro l
  induction l with
  | nil => intro dims file hinv; exact hinv
  | cons c rest ih =>
    intro dims file hinv
    rcases hp : payload c with _ | d
    · rw [pcs_cons_none nev seq i payload c rest dims file hp]
      exact hinv
    · rw [pcs_cons_some nev seq i payload c rest dims file d hp]
      have hstep := pc_inv nev seq i c d (dims c) file dims rfl hinv
      split
      · exact ih _ _ hstep
      · exact hstep

lemma recover_i (st : LoopState) (b : Bool) : (recover st b).1.i = st.i := by
  unfold recover
  split <;> rfl

lemma recover_dim (st : LoopState) (b : Bool) :
    (recover st b).1.current_dim = st.current_dim := by
  unfold recover
  split <;> rfl

lemma recover_file (st : LoopState) (b : Bool) : (recover st b).1.file = st.file := by
  unfold recover
  split <;> rfl

lemma recover_true (st : LoopState) :
    recover st true =
      ({ st with scopeLog := ScopeOp.setSettings :: ScopeOp.clear :: st.scopeLog },
        BatchOutcome.recovered) := by
  rfl

lemma recover_recovered (st : LoopState) (b : Bool)
    (h : (recover st b).2 = BatchOutcome.recovered) :
    (recover st b).1.scopeLog = ScopeOp.setSettings :: ScopeOp.clear :: st.scopeLog := by
  unfold recover at h ⊢
  split at h
  · rename_i hb
    rw [if_pos hb]
  · exact absurd h (by simp)

lemma batchStep_interrupt (cfg : Config) (st : LoopState) (inp : BatchInput)
    (h : inp.kind = BatchKind.interrupt) :
    batchStep cfg st inp = (st, BatchOutcome.escaped) := by
  simp [batchStep, h]

lemma batchStep_triggerFail (cfg : Config) (st : LoopState) (inp : BatchInput)
    (h : inp.kind = BatchKind.triggerFail) :
    batchStep cfg st inp =
      recover { st with file := writeSeconds st.file st.i (inp.now - cfg.startTime) }
        inp.recoveryOk := by
  simp [batchStep, h]

lemma batchStep_data (cfg : Config) (st : LoopState) (inp : BatchInput)
    (payload : Nat → Option ChanData) (h : inp.kind = BatchKind.data payload) :
    batchStep cfg st inp =
      if (processChannels cfg.nevents cfg.seqCount st.i payload cfg.channels st.current_dim
            (writeSeconds st.file st.i (inp.now - cfg.startTime))).2 = true then
        ({ st with
            i := st.i + cfg.seqCount
            current_dim := (processChannels cfg.nevents cfg.seqCount st.i payload cfg.channels
              st.current_dim (writeSeconds st.file st.i (inp.now - cfg.startTime))).1.1
            file := (processChannels cfg.nevents cfg.seqCount st.i payload cfg.channels
              st.current_dim (writeSeconds st.file st.i (inp.now - cfg.startTime))).1.2 },
          BatchOutcome.ok)
      else
        recover { st with
            current_dim := (processChannels cfg.nevents cfg.seqCount st.i payload cfg.channels
              st.current_dim (writeSeconds st.file st.i (inp.now - cfg.startTime))).1.1
            file := (processChannels cfg.nevents cfg.seqCount st.i payload cfg.channels
              st.current_dim (writeSeconds st.file st.i (inp.now - cfg.startTime))).1.2 }
          inp.recoveryOk := by
  simp only [batchStep, h]

lemma bs_recovered (cfg : Config) (st : LoopState) (inp : BatchInput)
    (h : (batchStep cfg st inp).2 = BatchOutcome.recovered) :
    (batchStep cfg st inp).1.i = st.i ∧
    (batchStep cfg st inp).1.scopeLog =
      ScopeOp.setSettings :: ScopeOp.clear :: st.scopeLog := by
  rcases hk : inp.kind with _ | _ | payload
  · rw [batchStep_interrupt cfg st inp hk] at h
    exact absurd h (by simp)
  · rw [batchStep_triggerFail cfg st inp hk] at h ⊢
    refine ⟨recover_i _ _, ?_⟩
    exact recover_recovered _ _ h
  · rw [batchStep_data cfg st inp payload hk] at h ⊢
    by_cases hok : (processChannels cfg.nevents cfg.seqCount st.i payload cfg.channels
        st.current_dim (writeSeconds st.file st.i (inp.now - cfg.startTime))).2 = true
    · rw [if_pos hok] at h
      exact absurd h (by simp)
    · rw [if_neg hok] at h ⊢
      exact ⟨recover_i _ _, recover_recovered _ _ h⟩

lemma bs_ok_parts (cfg : Config) (st : LoopState) (inp : BatchInput)
    (h : (batchStep cfg st inp).2 = BatchOutcome.ok) :
    (batchStep cfg st inp).1.i = st.i + cfg.seqCount ∧
    ∃ payload, inp.kind = BatchKind.data payload ∧
      (processChannels cfg.nevents cfg.seqCount st.i payload cfg.channels st.current_dim
        (writeSeconds st.file st.i (inp.now - cfg.startTime))).2 = true ∧
      (batchStep cfg st inp).1.file =
        (processChannels cfg.nevents cfg.seqCount st.i payload cfg.channels st.current_dim
          (writeSeconds st.file st.i (inp.now - cfg.startTime))).1.2 := by
  rcases hk : inp.kind with _ | _ | payload
  · rw [batchStep_interrupt cfg st inp hk] at h
    exact absurd h (by simp)
  · rw [batchStep_triggerFail cfg st inp hk] at h
    unfold recover at h
    split at h
    · exact absurd h (by simp)
    · exact absurd h (by simp)
  · rw [batchStep_data cfg st inp payload hk] at h ⊢
    by_cases hok : (processChannels cfg.nevents cfg.seqCount st.i payload cfg.channels
        st.current_dim (writeSeconds st.file st.i (inp.now - cfg.startTime))).2 = true
    · rw [if_pos hok] at h ⊢
      exact ⟨rfl, payload, rfl, hok, rfl⟩
    · rw [if_neg hok] at h
      unfold recover at h
      split at h
      · exact absurd h (by simp)
      · exact absurd h (by simp)

lemma bs_ok_isSome (cfg : Config) (st : LoopState) (inp : BatchInput)
    (h : (batchStep cfg st inp).2 = BatchOutcome.ok) :
    ∀ c ∈ cfg.channels, ∀ n < cfg.seqCount,
      ((batchStep cfg st inp).1.file.rows c (st.i + n)).isSome = true := by
  intro c hc n hn
  rcases bs_ok_parts cfg st inp h with ⟨_, payload, _, hpcs, hfile⟩
  rw [hfile]
  exact pcs_true_isSome cfg.nevents cfg.seqCount st.i payload cfg.channels _ _ hpcs c hc n hn

lemma bs_ok_bound (cfg : Config) (st : LoopState) (inp : BatchInput)
    (h : (batchStep cfg st inp).2 = BatchOutcome.ok) (hch : cfg.channels ≠ []) :
    ∀ n < cfg.seqCount, st.i + n < cfg.nevents := by
  intro n hn
  rcases bs_ok_parts cfg st inp h with ⟨_, payload, _, hpcs, _⟩
  rcases hl : cfg.channels with _ | ⟨c0, rest⟩
  · exact absurd hl hch
  · have := pcs_true_bound cfg.nevents cfg.seqCount st.i payload cfg.channels _ _ hpcs
    rw [hl] at this
    exact this c0 (List.mem_cons_self c0 rest) n hn

lemma bs_dim_mono (cfg : Config) (st : LoopState) (inp : BatchInput) (c2 : Nat) :
    st.current_dim c2 ≤ (batchStep cfg st inp).1.current_dim c2 := by
  rcases hk : inp.kind with _ | _ | payload
  · rw [batchStep_interrupt cfg st inp hk]
  · rw [batchStep_triggerFail cfg st inp hk]
    rw [recover_dim]
  · rw [batchStep_data cfg st inp payload hk]
    split
    · exact pcs_dim_mono cfg.nevents cfg.seqCount st.i payload cfg.channels _ _ c2
    · rw [recover_dim]
      exact pcs_dim_mono cfg.nevents cfg.seqCount st.i payload cfg.channels _ _ c2

lemma bs_inv (cfg : Config) (st : LoopState) (inp : BatchInput)
    (hinv : FileInv st.current_dim st.file) :
    FileInv (batchStep cfg st inp).1.current_dim (batchStep cfg st inp).1.file := by
  rcases hk : inp.kind with _ | _ | payload
  · rw [batchStep_interrupt cfg st inp hk]
    exact hinv
  · rw [batchStep_triggerFail cfg st inp hk]
    rw [recover_dim, recover_file]
    exact hinv
  · rw [batchStep_data cfg st inp payload hk]
    have hinv1 : FileInv st.current_dim
        (writeSeconds st.file st.i (inp.now - cfg.startTime)) := hinv
    have hres := pcs_inv cfg.nevents cfg.seqCount st.i payload cfg.channels
      st.current_dim _ hinv1
    split
    · exact hres
    · rw [recover_dim, recover_file]
      exact hres

lemma runLoop_nil (cfg : Config) (st : LoopState) :
    runLoop cfg [] st =
      if st.i < cfg.nevents then (st, ExitKind.exhausted) else (st, ExitKind.completed) := by
  rfl

lemma runLoop_cons_ge (cfg : Config) (st : LoopState) (inp : BatchInput)
    (rest : List BatchInput) (h : ¬ st.i < cfg.nevents) :
    runLoop cfg (inp :: rest) st = (st, ExitKind.completed) := by
  simp only [runLoop]
  rw [if_neg h]

lemma runLoop_cons_escaped (cfg : Config) (st : LoopState) (inp : BatchInput)
    (rest : List BatchInput) (hlt : st.i < cfg.nevents)
    (h : (batchStep cfg st inp).2 = BatchOutcome.escaped) :
    runLoop cfg (inp :: rest) st = ((batchStep cfg st inp).1, ExitKind.escaped) := by
  rcases hb : batchStep cfg st inp with ⟨st2, o⟩
  rw [hb] at h
  simp only at h
  subst h
  rw [runLoop.eq_2, if_pos hlt, hb]

lemma runLoop_cons_go (cfg : Config) (st : LoopState) (inp : BatchInput)
    (rest : List BatchInput) (hlt : st.i < cfg.nevents)
    (h : (batchStep cfg st inp).2 ≠ BatchOutcome.escaped) :
    runLoop cfg (inp :: rest) st = runLoop cfg rest (batchStep cfg st inp).1 := by
  rcases hb : batchStep cfg st inp with ⟨st2, o⟩
  rw [hb] at h
  simp only at h
  rw [runLoop.eq_2, if_pos hlt, hb]
  cases o
  · rfl
  · rfl
  · exact absurd rfl h

lemma rl_dim_mono (cfg : Config) :
    ∀ (ins : List BatchInput) (st : LoopState) (c2 : Nat),
      st.current_dim c2 ≤ ((runLoop cfg ins st).1).current_dim c2 := by
  intro ins
  induction ins with
  | nil =>
    intro st c2
    rw [runLoop_nil]
    split
    · exact Nat.le_refl _
    · exact Nat.le_refl _
  | cons inp rest ih =>
    intro st c2
    by_cases hlt : st.i < cfg.nevents
    · by_cases hesc : (batchStep cfg st inp).2 = BatchOutcome.escaped
      · rw [runLoop_cons_escaped cfg st inp rest hlt hesc]
        exact bs_dim_mono cfg st inp c2
      · rw [runLoop_cons_go cfg st inp rest hlt hesc]
        exact Nat.le_trans (bs_dim_mono cfg st inp c2) (ih _ c2)
    · rw [runLoop_cons_ge cfg st inp rest hlt]

lemma rl_inv (cfg : Config) :
    ∀ (ins : List BatchInput) (st : LoopState),
      FileInv st.current_dim st.file →
      FileInv ((runLoop cfg ins st).1).current_dim ((runLoop cfg ins st).1).file := by
  intro ins
  induction ins with
  | nil =>
    intro st hinv
    rw [runLoop_nil]
    split
    · exact hinv
    · exact hinv
  | cons inp rest ih =>
    intro st hinv
    by_cases hlt : st.i < cfg.nevents
    · by_cases hesc : (batchStep cfg st inp).2 = BatchOutcome.escaped
      · rw [runLoop_cons_escaped cfg st inp rest hlt hesc]
        exact bs_inv cfg st inp hinv
      · rw [runLoop_cons_go cfg st inp rest hlt hesc]
        exact ih _ (bs_inv cfg st inp hinv)
    · rw [runLoop_cons_ge cfg st inp rest hlt]
      exact hinv

lemma rl_not_completed (cfg : Config) (hch : cfg.channels ≠ []) (hsq : 1 ≤ cfg.seqCount)
    (hnd : ¬ cfg.seqCount ∣ cfg.nevents) :
    ∀ (ins : List BatchInput) (st : LoopState),
      cfg.seqCount ∣ st.i → st.i < cfg.nevents →
      (runLoop cfg ins st).2 ≠ ExitKind.completed := by
  intro ins
  induction ins with
  | nil =>
    intro st _ hlt
    rw [runLoop_nil, if_pos hlt]
    simp
  | cons inp rest ih =>
    intro st hdvd hlt
    by_cases hesc : (batchStep cfg st inp).2 = BatchOutcome.escaped
    · rw [runLoop_cons_escaped cfg st inp rest hlt hesc]
      simp
    · rw [runLoop_cons_go cfg st inp rest hlt hesc]
      rcases ho : (batchStep cfg st inp).2 with _ | _ | _
      · have hi := (bs_ok_parts cfg st inp ho).1
        have hbound := bs_ok_bound cfg st inp ho hch (cfg.seqCount - 1) (by omega)
        have hdvd2 : cfg.seqCount ∣ st.i + cfg.seqCount := Dvd.dvd.add hdvd (dvd_refl _)
        have hne : st.i + cfg.seqCount ≠ cfg.nevents := by
          intro he
          exact hnd (he ▸ hdvd2)
        apply ih
        · rw [hi]
          exact hdvd2
        · rw [hi]
          omega
      · have hi := (bs_recovered cfg st inp ho).1
        apply ih
        · rw [hi]
          exact hdvd
        · rw [hi]
          exact hlt
      · exact absurd ho hesc


/-- C1: in any iteration that fails with a non-cancellation exception the
recovery path runs scope clear followed by settings reapply and leaves the
cursor unchanged, and the loop then continues with the next attempt from
the same state; the cursor advances by the confirmed batch size only when
an iteration completes without error, and such an iteration has written a
sample row for every channel at every global index i..i+batchSize-1. -/
theorem c1_recovery_does_not_advance_cursor (cfg : Config) (st : LoopState)
    (inp : BatchInput) (rest : List BatchInput) :
    ((batchStep cfg st inp).2 = BatchOutcome.recovered →
      (batchStep cfg st inp).1.i = st.i ∧
      (batchStep cfg st inp).1.scopeLog =
        ScopeOp.setSettings :: ScopeOp.clear :: st.scopeLog ∧
      (st.i < cfg.nevents →
        runLoop cfg (inp :: rest) st = runLoop cfg rest (batchStep cfg st inp).1)) ∧
    ((batchStep cfg st inp).2 = BatchOutcome.ok →
      (batchStep cfg st inp).1.i = st.i + cfg.seqCount ∧
      ∀ c ∈ cfg.channels, ∀ n < cfg.seqCount,
        ((batchStep cfg st inp).1.file.rows c (st.i + n)).isSome = true) := by
  constructor
  · intro h
    refine ⟨(bs_recovered cfg st inp h).1, (bs_recovered cfg st inp h).2, ?_⟩
    intro hlt
    apply runLoop_cons_go cfg st inp rest hlt
    rw [h]
    simp
  · intro h
    exact ⟨(bs_ok_parts cfg st inp h).1, bs_ok_isSome cfg st inp h⟩

/-- Witness for C1 at a concrete failed batch (cursor 6, trigger failure)
and a concrete successful batch. -/
theorem c1_witness :
    (batchStep cfgA stW failTrig).1.i = 6 ∧
    (batchStep cfgA stW failTrig).1.scopeLog =
      ScopeOp.setSettings :: ScopeOp.clear :: stW.scopeLog ∧
    runLoop cfgA [failTrig, batchA 1] stW =
      runLoop cfgA [batchA 1] (batchStep cfgA stW failTrig).1 ∧
    (batchStep cfgA stW (batchA 1)).1.i = 6 + cfgA.seqCount ∧
    ((batchStep cfgA stW (batchA 1)).1.file.rows 1 6).isSome = true := by
  obtain ⟨h1, h2, h3⟩ :=
    (c1_recovery_does_not_advance_cursor cfgA stW failTrig [batchA 1]).1 (by decide)
  obtain ⟨h4, h5⟩ :=
    (c1_recovery_does_not_advance_cursor cfgA stW (batchA 1) []).2 (by decide)
  exact ⟨h1, h2, h3 (by decide), h4, h5 1 (by decide) 0 (by decide)⟩

/-- C2: the configuration warning fires exactly when the confirmed batch
size differs from the requested one, the confirmed size is 1 when the
read-back says sequence mode is off, and every successful batch advances
the cursor by the confirmed size (never the requested one). -/
theorem c2_confirmed_size_is_stride (cfg : Config) (st : LoopState) (inp : BatchInput) :
    (configWarning cfg = true ↔ cfg.nsequence ≠ cfg.seqCount) ∧
    (cfg.settings.sequenceOn = false → cfg.seqCount = 1) ∧
    ((batchStep cfg st inp).2 = BatchOutcome.ok →
      (batchStep cfg st inp).1.i = st.i + cfg.seqCount) := by
  refine ⟨?_, ?_, ?_⟩
  · simp [configWarning]
  · intro h
    simp [Config.seqCount, confirmedSequenceCount, h]
  · intro h
    exact (bs_ok_parts cfg st inp h).1

/-- Witness for C2 at a session whose read-back reports sequence mode off
(confirmed size 1) and a successful batch. -/
theorem c2_witness :
    cfgC.seqCount = 1 ∧ (batchStep cfgC stC batchC).1.i = stC.i + cfgC.seqCount := by
  obtain ⟨h1, h2, h3⟩ := c2_confirmed_size_is_stride cfgC stC batchC
  exact ⟨h2 rfl, h3 (by decide)⟩

/-- C3: per-channel capacity never shrinks along a run; every row present
in the file has length equal to its channel's current capacity, from the
fresh file onwards; each channel step sets the capacity to the maximum of
the old capacity and the batch's per-sub-event count; and every row written
by a successful channel step is zero beyond the copied samples. -/
theorem c3_capacity_monotone_rows_padded (cfg : Config) (ins : List BatchInput)
    (st : LoopState) (nev seq i c : Nat) (d : ChanData) (dim : Nat) (file : FileState) :
    (∀ c2, st.current_dim c2 ≤ ((runLoop cfg ins st).1).current_dim c2) ∧
    (FileInv st.current_dim st.file →
      FileInv ((runLoop cfg ins st).1).current_dim ((runLoop cfg ins st).1).file) ∧
    FileInv (initState cfg).current_dim (initState cfg).file ∧
    (processChannel nev seq i c d dim file).1.1 = max dim (d.wave_array_count / seq) ∧
    (∀ n r j, (processChannel nev seq i c d dim file).2 = true → n < seq →
      (processChannel nev seq i c d dim file).1.2.rows c (i + n) = some r →
      d.wave_array_count / seq ≤ j → j < r.length → r[j]? = some 0) := by
  refine ⟨fun c2 => rl_dim_mono cfg ins st c2, rl_inv cfg ins st, ?_, ?_, ?_⟩
  · intro c2 idx r h
    simp [initState, emptyFile] at h
  · exact pc_dim nev seq i c d dim file
  · intro n r j hok hn hr hj hjl
    exact pc_true_suffix nev seq i c d dim file n r j hok hn hr hj hjl

/-- Witness for C3: the end-to-end run keeps the row-length invariant, a
channel step takes the maximum of old capacity 3 and batch count 2, and a
concrete written row is zero past its two copied samples. -/
theorem c3_witness :
    FileInv ((runLoop cfgA insAc (initState cfgA)).1).current_dim
      ((runLoop cfgA insAc (initState cfgA)).1).file ∧
    (processChannel 10 2 0 1 chan4 3 emptyFile).1.1 = max 3 (chan4.wave_array_count / 2) ∧
    ([1, 2, 0] : List Int)[2]? = some 0 := by
  obtain ⟨h1, h2, h3, h4, h5⟩ :=
    c3_capacity_monotone_rows_padded cfgA insAc (initState cfgA) 10 2 0 1 chan4 3 emptyFile
  refine ⟨h2 ?_, h4, ?_⟩
  · intro c2 idx r h
    simp [initState, emptyFile] at h
  · exact h5 0 [1, 2, 0] 2 (by decide) (by decide) (by decide) (by decide) (by decide)

/-- C4: a channel payload whose flat sample count is not divisible by the
confirmed batch size makes the decode (the numpy reshape) fail, so the
channel step reports an error and writes no row at all; a failed batch with
a working recovery path sends the loop to the recovered outcome with the
cursor unchanged. -/
theorem c4_malformed_payload_recovers (nev seq i c : Nat) (d : ChanData) (dim : Nat)
    (file : FileState) (cfg : Config) (st : LoopState) (now : Int)
    (payload : Nat → Option ChanData) :
    (d.samples.length % seq ≠ 0 →
      (processChannel nev seq i c d dim file).2 = false ∧
      ∀ c2 idx, ((processChannel nev seq i c d dim file).1.2.rows c2 idx).isSome =
        (file.rows c2 idx).isSome) ∧
    ((processChannels cfg.nevents cfg.seqCount st.i payload cfg.channels st.current_dim
        (writeSeconds st.file st.i (now - cfg.startTime))).2 = false →
      (batchStep cfg st { now := now, kind := BatchKind.data payload, recoveryOk := true }).2 =
        BatchOutcome.recovered ∧
      (batchStep cfg st
        { now := now, kind := BatchKind.data payload, recoveryOk := true }).1.i = st.i) := by
  constructor
  · intro hdiv
    constructor
    · show (processChannelBody nev seq i c d _ _ _).2 = false
      simp only [processChannelBody]
      rw [if_pos hdiv]
    · intro c2 idx
      show ((processChannelBody nev seq i c d _ _ _).1.rows c2 idx).isSome = _
      simp only [processChannelBody]
      rw [if_pos hdiv]
      show (Option.isSome ((if dim < d.wave_array_count / seq then
        resizeChannel file c (d.wave_array_count / seq) else file).rows c2 idx)) = _
      split
      · rw [rc_isSome]
      · rfl
  · intro hfail
    rw [batchStep_data cfg st { now := now, kind := BatchKind.data payload, recoveryOk := true }
      payload rfl]
    rw [if_neg (by simpa using hfail)]
    exact ⟨rfl, recover_i _ _⟩

/-- Witness for C4: a 3-sample payload at batch size 2 fails and writes
nothing, and a concrete failing batch leaves the loop recovered at the same
cursor. -/
theorem c4_witness :
    (processChannel 10 2 0 1 chanMal 2 emptyFile).2 = false ∧
    ((processChannel 10 2 0 1 chanMal 2 emptyFile).1.2.rows 1 0).isSome =
      (emptyFile.rows 1 0).isSome ∧
    (batchStep cfgB stB (batchA 10)).2 = BatchOutcome.recovered ∧
    (batchStep cfgB stB (batchA 10)).1.i = stB.i := by
  obtain ⟨hA, hB⟩ := c4_malformed_payload_recovers 10 2 0 1 chanMal 2 emptyFile cfgB stB 10
    (fun _ => some chan4)
  obtain ⟨h1, h2⟩ := hA (by decide)
  obtain ⟨h3, h4⟩ := hB (by decide)
  exact ⟨h1, h2 1 0, h3, h4⟩

/-- C5 counterexample: with an initial capacity of 3 samples (the
originally-configured useful length) and a later single-trace batch of 5
samples, the code grows the row to 5 and copies all 5 current-batch
samples; the claim's fixed copy length of 3 would give [7,7,7,0,0]
instead. -/
theorem c5_counterexample :
    (processChannel 10 1 0 1 chanGrow 3 emptyFile).1.2.rows 1 0 = some [7, 7, 7, 7, 7] ∧
    (processChannel 10 1 0 1 chanGrow 3 emptyFile).1.2.rows 1 0 ≠
      some (paddedRow (subTrace chanGrow.samples 5 0) 3 5) := by
  exact ⟨by decide, by decide⟩

/-- C5 amended: the number of samples copied into the zero-padded row is
the current batch's per-sub-event count (wave_array_count divided by the
confirmed batch size, recomputed at line 108 on every batch), not a value
fixed at session configuration; after a growth the row is filled with the
full new count. -/
theorem c5_copy_length_is_current_batch (nev seq i c : Nat) (d : ChanData) (dim : Nat)
    (file : FileState) (n : Nat) (hdiv : d.samples.length % seq = 0)
    (hle : d.wave_array_count / seq ≤ d.samples.length / seq)
    (hok : (processChannel nev seq i c d dim file).2 = true) (hn : n < seq) :
    (processChannel nev seq i c d dim file).1.2.rows c (i + n) =
      some (paddedRow (subTrace d.samples (d.samples.length / seq) n)
        (d.wave_array_count / seq) (max dim (d.wave_array_count / seq))) :=
  pc_true_rows_elt nev seq i c d dim file n hdiv hle hok hn

/-- Witness for the amended C5 at the concrete growth batch: the written
row is the batch's full 5 samples. -/
theorem c5_witness :
    (processChannel 10 1 0 1 chanGrow 3 emptyFile).1.2.rows 1 0 =
      some (paddedRow (subTrace chanGrow.samples 5 0) 5 (max 3 5)) := by
  have h := c5_copy_length_is_current_batch 10 1 0 1 chanGrow 3 emptyFile 0
    (by decide) (by decide) (by decide) (by decide)
  exact h

/-- C6 counterexample: in the error-free run with nevents 10 and confirmed
batch size 2, only the batch-start indices of seconds_from_start are ever
assigned - index 1 is never written and keeps the fill value 0 - and the
array is not non-decreasing over indices 0..9 since slot 0 holds 1 and
slot 1 holds 0. -/
theorem c6_counterexample :
    ¬ (1 ∈ (runLoop cfgA insAc (initState cfgA)).1.file.secondsWritten) ∧
    (runLoop cfgA insAc (initState cfgA)).1.file.seconds 0 = 1 ∧
    (runLoop cfgA insAc (initState cfgA)).1.file.seconds 1 = 0 ∧
    ¬ (∀ k < 10, ∀ j ≤ k,
        (runLoop cfgA insAc (initState cfgA)).1.file.seconds j ≤
        (runLoop cfgA insAc (initState cfgA)).1.file.seconds k) := by
  refine ⟨by decide, by decide, by decide, ?_⟩
  intro h
  have := h 1 (by decide) 0 (by decide)
  revert this
  decide

/-- C6 amended: in the error-free run with nevents 10 and confirmed batch
size 2, exactly the batch-start indices 0,2,4,6,8 of seconds_from_start are
assigned, each holding its batch's elapsed time; the odd slots keep the
fill value 0; and the assigned values are non-decreasing when the clock
is. -/
theorem c6_seconds_at_batch_starts (t1 t2 t3 t4 t5 : Int) (h12 : t1 ≤ t2) (h23 : t2 ≤ t3)
    (h34 : t3 ≤ t4) (h45 : t4 ≤ t5) :
    (runLoop cfgA (insA t1 t2 t3 t4 t5) (initState cfgA)).2 = ExitKind.completed ∧
    (runLoop cfgA (insA t1 t2 t3 t4 t5) (initState cfgA)).1.i = 10 ∧
    (runLoop cfgA (insA t1 t2 t3 t4 t5) (initState cfgA)).1.file.secondsWritten =
      [8, 6, 4, 2, 0] ∧
    (runLoop cfgA (insA t1 t2 t3 t4 t5) (initState cfgA)).1.file.seconds 0 = t1 ∧
    (runLoop cfgA (insA t1 t2 t3 t4 t5) (initState cfgA)).1.file.seconds 2 = t2 ∧
    (runLoop cfgA (insA t1 t2 t3 t4 t5) (initState cfgA)).1.file.seconds 4 = t3 ∧
    (runLoop cfgA (insA t1 t2 t3 t4 t5) (initState cfgA)).1.file.seconds 6 = t4 ∧
    (runLoop cfgA (insA t1 t2 t3 t4 t5) (initState cfgA)).1.file.seconds 8 = t5 ∧
    (runLoop cfgA (insA t1 t2 t3 t4 t5) (initState cfgA)).1.file.seconds 1 = 0 ∧
    (runLoop cfgA (insA t1 t2 t3 t4 t5) (initState cfgA)).1.file.seconds 3 = 0 ∧
    (runLoop cfgA (insA t1 t2 t3 t4 t5) (initState cfgA)).1.file.seconds 5 = 0 ∧
    (runLoop cfgA (insA t1 t2 t3 t4 t5) (initState cfgA)).1.file.seconds 7 = 0 ∧
    (runLoop cfgA (insA t1 t2 t3 t4 t5) (initState cfgA)).1.file.seconds 9 = 0 ∧
    ((runLoop cfgA (insA t1 t2 t3 t4 t5) (initState cfgA)).1.file.seconds 0 ≤
      (runLoop cfgA (insA t1 t2 t3 t4 t5) (initState cfgA)).1.file.seconds 2 ∧
     (runLoop cfgA (insA t1 t2 t3 t4 t5) (initState cfgA)).1.file.seconds 2 ≤
      (runLoop cfgA (insA t1 t2 t3 t4 t5) (initState cfgA)).1.file.seconds 4 ∧
     (runLoop cfgA (insA t1 t2 t3 t4 t5) (initState cfgA)).1.file.seconds 4 ≤
      (runLoop cfgA (insA t1 t2 t3 t4 t5) (initState cfgA)).1.file.seconds 6 ∧
     (runLoop cfgA (insA t1 t2 t3 t4 t5) (initState cfgA)).1.file.seconds 6 ≤
      (runLoop cfgA (insA t1 t2 t3 t4 t5) (initState cfgA)).1.file.seconds 8) := by
  have e0 : (runLoop cfgA (insA t1 t2 t3 t4 t5) (initState cfgA)).1.file.seconds 0 =
      t1 - 0 := rfl
  have e2 : (runLoop cfgA (insA t1 t2 t3 t4 t5) (initState cfgA)).1.file.seconds 2 =
      t2 - 0 := rfl
  have e4 : (runLoop cfgA (insA t1 t2 t3 t4 t5) (initState cfgA)).1.file.seconds 4 =
      t3 - 0 := rfl
  have e6 : (runLoop cfgA (insA t1 t2 t3 t4 t5) (initState cfgA)).1.file.seconds 6 =
      t4 - 0 := rfl
  have e8 : (runLoop cfgA (insA t1 t2 t3 t4 t5) (initState cfgA)).1.file.seconds 8 =
      t5 - 0 := rfl
  refine ⟨rfl, rfl, rfl, ?_, ?_, ?_, ?_, ?_, rfl, rfl, rfl, rfl, rfl, ?_, ?_, ?_, ?_⟩
  · rw [e0, Int.sub_zero]
  · rw [e2, Int.sub_zero]
  · rw [e4, Int.sub_zero]
  · rw [e6, Int.sub_zero]
  · rw [e8, Int.sub_zero]
  · rw [e0, e2]
    omega
  · rw [e2, e4]
    omega
  · rw [e4, e6]
    omega
  · rw [e6, e8]
    omega

/-- Witness for the amended C6 at clock times 1..5. -/
theorem c6_witness :
    (runLoop cfgA (insA 1 2 3 4 5) (initState cfgA)).1.file.secondsWritten =
      [8, 6, 4, 2, 0] ∧
    (runLoop cfgA (insA 1 2 3 4 5) (initState cfgA)).1.file.seconds 2 = 2 ∧
    (runLoop cfgA (insA 1 2 3 4 5) (initState cfgA)).1.file.seconds 3 = 0 := by
  obtain ⟨h1, h2, h3, h4, h5, h6, h7, h8, h9, h10, h11, h12, h13, h14⟩ :=
    c6_seconds_at_batch_starts 1 2 3 4 5 (by decide) (by decide) (by decide) (by decide)
  exact ⟨h3, h5, h10⟩

/-- C7: growing a channel from capacity 1000 to a batch reporting 1200
samples per sub-event issues exactly one resize call, to 1200; a previously
written 1000-cell row keeps its cells and reads zero at 1000..1199; and a
later step that again reports 1200 on the grown channel issues no further
resize. -/
theorem c7_resize_preserves_old_rows (nev seq i idx c : Nat) (d : ChanData)
    (file : FileState) (r : List Int) (hns : d.wave_array_count / seq = 1200)
    (hrow : file.rows c idx = some r) (hlen : r.length = 1000) (hidx : idx < i) :
    (processChannel nev seq i c d 1000 file).1.2.resizeLog = (c, 1200) :: file.resizeLog ∧
    (processChannel nev seq i c d 1000 file).1.2.rows c idx =
      some (r ++ List.replicate 200 0) ∧
    (∀ j < 1000, (r ++ List.replicate 200 0)[j]? = r[j]?) ∧
    (∀ j, 1000 ≤ j → j < 1200 → (r ++ List.replicate 200 0)[j]? = some 0) ∧
    (∀ (i2 c2 : Nat) (d2 : ChanData) (file2 : FileState),
      d2.wave_array_count / seq = 1200 →
      (processChannel nev seq i2 c2 d2 1200 file2).1.2.resizeLog = file2.resizeLog) := by
  have hlt : (1000 : Nat) < d.wave_array_count / seq := by omega
  refine ⟨?_, ?_, ?_, ?_, ?_⟩
  · rw [pc_resizeLog, if_pos hlt, hns]
  · rw [pc_rows_lt nev seq i c d 1000 file c idx hidx, if_pos hlt, rc_rows_eq, hrow]
    simp [hns, hlen]
  · intro j hj
    rw [List.getElem?_append]
    rw [if_pos (by omega)]
  · intro j hj1 hj2
    have hlen2 : r.length ≤ j := by omega
    rw [List.getElem?_append_right hlen2]
    apply replicate_getElem
    omega
  · intro i2 c2 d2 file2 h2
    rw [pc_resizeLog, if_neg (by omega)]

/-- Witness for C7 at a concrete file holding one 1000-cell row. -/
theorem c7_witness :
    (processChannel 10 2 1 1 chanBig 1000 fileBig).1.2.resizeLog =
      (1, 1200) :: fileBig.resizeLog ∧
    (processChannel 10 2 1 1 chanBig 1000 fileBig).1.2.rows 1 0 =
      some (List.replicate 1000 3 ++ List.replicate 200 0) ∧
    (List.replicate 1000 (3 : Int) ++ List.replicate 200 0)[1100]? = some 0 ∧
    (processChannel 10 2 3 1 chanBig 1200 fileBig).1.2.resizeLog = fileBig.resizeLog := by
  obtain ⟨h1, h2, h3, h4, h5⟩ := c7_resize_preserves_old_rows 10 2 1 0 1 chanBig fileBig
    (List.replicate 1000 3) rfl rfl (List.length_replicate 1000 3) (by decide)
  exact ⟨h1, h2, h4 1100 (by decide) (by decide), h5 3 1 chanBig fileBig rfl⟩

/-- C8: on every exit of the loop - completion, escaping error or
cancellation - the function closes the file, clears the scope and returns
the cursor value instead of an error; in the concrete cancellation run
after 4 of 10 events the file holds exactly the 4 written rows per channel
and the returned value is 4. -/
theorem c8_close_clear_return_cursor (cfg : Config) (ins : List BatchInput) :
    (fetchAndSaveFast cfg ins).fileClosed = true ∧
    (fetchAndSaveFast cfg ins).scopeCleared = true ∧
    (fetchAndSaveFast cfg ins).ret = (runLoop cfg ins (initState cfg)).1.i ∧
    (fetchAndSaveFast cfgA insCancel =
        { ret := 4, fileClosed := true, scopeCleared := true } ∧
      (runLoop cfgA insCancel (initState cfgA)).2 = ExitKind.escaped ∧
      (∀ c ∈ [1, 2], ∀ n < 4,
        (((runLoop cfgA insCancel (initState cfgA)).1).file.rows c n).isSome = true) ∧
      (∀ c ∈ [1, 2], ∀ n < 10, 4 ≤ n →
        ((runLoop cfgA insCancel (initState cfgA)).1).file.rows c n = none)) := by
  refine ⟨rfl, rfl, rfl, by decide, by decide, by decide, by decide⟩

/-- Witness for C8 instantiating the row facts of the cancellation run. -/
theorem c8_witness :
    (fetchAndSaveFast cfgA insCancel).ret =
      (runLoop cfgA insCancel (initState cfgA)).1.i ∧
    (((runLoop cfgA insCancel (initState cfgA)).1).file.rows 1 3).isSome = true ∧
    ((runLoop cfgA insCancel (initState cfgA)).1).file.rows 2 4 = none := by
  obtain ⟨h1, h2, h3, h4, h5, h6, h7⟩ := c8_close_clear_return_cursor cfgA insCancel
  exact ⟨h3, h6 1 (by decide) 3 (by decide), h7 2 (by decide) 4 (by decide) (by decide)⟩

/-- C9: when the confirmed batch size does not divide nevents, the loop can
never exit through its guard: every trace leaves it short of completion (a
final batch writes its first rows, fails on the out-of-range index, and
recovery retries with the cursor unchanged); concretely at cfgB the batch
from cursor 4 writes row 4, fails on row 5 and is left recovered at 4. -/
theorem c9_no_normal_termination (cfg : Config) (ins : List BatchInput) (st : LoopState)
    (hch : cfg.channels ≠ []) (hsq : 1 ≤ cfg.seqCount)
    (hnd : ¬ cfg.seqCount ∣ cfg.nevents) (hdvd : cfg.seqCount ∣ st.i)
    (hlt : st.i < cfg.nevents) :
    (runLoop cfg ins st).2 ≠ ExitKind.completed ∧
    ((batchStep cfgB stB (batchA 10)).2 = BatchOutcome.recovered ∧
      (batchStep cfgB stB (batchA 10)).1.i = 4 ∧
      (batchStep cfgB stB (batchA 10)).1.file.rows 1 4 = some [1, 2] ∧
      (batchStep cfgB stB (batchA 10)).1.file.rows 1 5 = none) := by
  refine ⟨rl_not_completed cfg hch hsq hnd ins st hdvd hlt, by decide, by decide,
    by decide, by decide⟩

/-- Witness for C9 at cfgB (nevents 5, batch size 2) from cursor 4. -/
theorem c9_witness :
    (runLoop cfgB [batchA 10] stB).2 ≠ ExitKind.completed ∧
    (batchStep cfgB stB (batchA 10)).1.i = 4 := by
  obtain ⟨h1, h2, h3, h4, h5⟩ := c9_no_normal_termination cfgB [batchA 10] stB
    (by decide) (by decide) (by decide) (by decide) (by decide)
  exact ⟨h1, h3⟩

/-- C10: once the loop has been entered, no exception reaches the caller:
even when an exception escapes the loop body (a cancellation, or a failure
inside the recovery path itself), the return in the finally block hands
back the cursor value; concretely the cfgC trace whose second iteration
fails with a failing recovery path still returns 1 with the file closed. -/
theorem c10_finally_returns_cursor (cfg : Config) (ins : List BatchInput)
    (hesc : (runLoop cfg ins (initState cfg)).2 = ExitKind.escaped) :
    (fetchAndSaveFast cfg ins).ret = (runLoop cfg ins (initState cfg)).1.i ∧
    (fetchAndSaveFast cfg ins).fileClosed = true ∧
    (fetchAndSaveFast cfg ins).scopeCleared = true ∧
    ((runLoop cfgC insEsc (initState cfgC)).2 = ExitKind.escaped ∧
      fetchAndSaveFast cfgC insEsc =
        { ret := 1, fileClosed := true, scopeCleared := true }) := by
  exact ⟨rfl, rfl, rfl, by decide, by decide⟩

/-- Witness for C10 at the concrete escaping trace. -/
theorem c10_witness :
    (fetchAndSaveFast cfgC insEsc).ret = (runLoop cfgC insEsc (initState cfgC)).1.i ∧
    (fetchAndSaveFast cfgC insEsc).fileClosed = true := by
  obtain ⟨h1, h2, h3, h4⟩ := c10_finally_returns_cursor cfgC insEsc (by decide)
  exact ⟨h1, h2⟩
